import Mathlib

/-!
Verification development for the `2-layers` todo application
(`src/2-layers/app.py`): a shallow embedding of its data layer, service
layer and result wrappers, together with theorems about permission
evaluation, error ordering, pagination, link expansion and the
representations the result wrappers produce.

External collaborators (flask_principal's `Permission.allows`,
invenio's `Pagination` and `LinksTemplate`, marshmallow's schema
loading) are not part of the repository's sources; where a definition
embeds one of them it is modelled from the specification's stated
contract and marked as such in its doc comment.
-/

namespace TodoApp

/-- A claim token as in flask_principal: `UserNeed(user_id)` or
`RoleNeed(role_name)`.  Identity ids in the application may be `None`
(anonymous), so the user-id value is an `Option Int`. -/
inductive Need where
  | userNeed (userId : Option Int)
  | roleNeed (role : String)
deriving DecidableEq

/-- A resolved caller: flask_principal `Identity(user_id)` has `id` and a
`provides` set of needs; `AnonymousIdentity()` has `id = None` and no
provides. -/
structure Identity where
  id : Option Int
  provides : List Need
deriving DecidableEq

/-- `TodoResource._make_identity(user_id)` for a non-`None` user id:
`Identity(user_id)` plus `UserNeed(user_id)` and
`RoleNeed("authenticated_user")`. -/
def makeIdentity (userId : Int) : Identity :=
  { id := some userId
    provides := [Need.userNeed (some userId), Need.roleNeed "authenticated_user"] }

/-- `TodoResource._make_identity(None)`: an `AnonymousIdentity()` — no id,
no provides. -/
def anonymousIdentity : Identity :=
  { id := none, provides := [] }

/-- The data layer entity `TodoItem(id_, title, priority, user_id)`.
`user_id` is set from `identity.id` in `TodoService.create`, hence
`Option Int`. -/
structure TodoItem where
  id : Int
  title : String
  priority : Int
  user_id : Option Int
deriving DecidableEq

/-- Errors raised by the embedded code paths.  `noResult` is the data
layer's `NoResultError` (mapped to 404 Not Found), `validationError` is
marshmallow's `ValidationError` (400), `permissionDenied` is
flask_principal's `PermissionDenied` (403), `invalidArgument` is the
spec's `InvalidArgument` condition of the pagination calculator, and
`attributeError` models the Python `AttributeError` raised when a
generator dereferences a missing item. -/
inductive AppError where
  | noResult (id : Int)
  | validationError
  | permissionDenied
  | invalidArgument
  | attributeError
deriving DecidableEq

/-! ## Data layer: `TodoDatabase`

Python's class-level dict `db` maps item id to item and preserves
insertion order; assigning to an existing key replaces the value in
place, a new key is appended.  We embed it as an association list. -/

/-- The store: an insertion-ordered association list from item id to
item, as a Python dict. -/
abbrev Db := List (Int × TodoItem)

/-- Python dict assignment `d[k] = v`: replace in place when the key is
present, append otherwise. -/
def dictSet (db : Db) (k : Int) (v : TodoItem) : Db :=
  if db.any (fun e => e.1 = k) then
    db.map (fun e => if e.1 = k then (k, v) else e)
  else
    db ++ [(k, v)]

/-- Python dict lookup returning `none` when the key is absent. -/
def dictGet (db : Db) (k : Int) : Option TodoItem :=
  (db.find? (fun e => e.1 = k)).map (·.2)

/-- `TodoDatabase.add(item)`: `cls.db[item.id] = item`. -/
def TodoDatabase.add (db : Db) (item : TodoItem) : Db :=
  dictSet db item.id item

/-- `TodoDatabase.get(id_)`: raise `NoResultError(id_)` when absent,
return the item otherwise. -/
def TodoDatabase.get (db : Db) (id_ : Int) : Except AppError TodoItem :=
  match dictGet db id_ with
  | none => .error (.noResult id_)
  | some item => .ok item

/-- `TodoDatabase.get_all(user_id)`: all stored items whose `user_id`
equals the given one, in store (insertion) order. -/
def TodoDatabase.get_all (db : Db) (userId : Option Int) : List TodoItem :=
  (db.map (·.2)).filter (fun item => item.user_id = userId)

/-! ## Permission policy

`TodoPermissionPolicy.__init__` looks up `can_<action>`, collects the
needs of each generator in order, and passes them to flask_principal's
`Permission`. -/

/-- The actions the policy declares: `can_create`, `can_read`,
`can_search`. -/
inductive Action where
  | create
  | read
  | search
deriving DecidableEq

/-- The two generator classes defined in the application. -/
inductive PGenerator where
  | owner
  | authenticatedUser
deriving DecidableEq

/-- The declarative policy lists: `can_create = [AuthenticatedUser()]`,
`can_read = [Owner()]`, `can_search = []`. -/
def canGenerators : Action → List PGenerator
  | .create => [.authenticatedUser]
  | .read => [.owner]
  | .search => []

/-- `Generator.needs(item=None)` for each generator.  `Owner.needs`
dereferences `item.user_id`, so calling it with `item=None` raises a
Python `AttributeError`, embedded as `.error .attributeError`. -/
def PGenerator.needs : PGenerator → Option TodoItem → Except AppError (List Need)
  | .owner, some item => .ok [Need.userNeed item.user_id]
  | .owner, none => .error .attributeError
  | .authenticatedUser, _ => .ok [Need.roleNeed "authenticated_user"]

/-- The needs-collection loop of `TodoPermissionPolicy.__init__`:
`for g in generators: for n in g.needs(item=item): needs.append(n)`. -/
def collectNeeds (action : Action) (item : Option TodoItem) :
    Except AppError (List Need) :=
  (canGenerators action).foldlM
    (fun acc g => do
      let ns ← g.needs item
      pure (acc ++ ns))
    []

/-- Modelled from the spec: flask_principal's `Permission.allows` is not
part of the repository's sources; per the spec, access is granted iff
the identity's claims intersect the required needs, with an empty
required-needs set meaning "no restriction" (grant). -/
def permissionAllows (needs : List Need) (identity : Identity) : Bool :=
  needs.isEmpty || needs.any (fun n => identity.provides.contains n)

/-- `Service.require_permission`: build the policy's needs for the
action and the (optional) item, then fail with `PermissionDenied` when
the identity is not allowed. -/
def requirePermission (identity : Identity) (action : Action)
    (item : Option TodoItem) : Except AppError Unit := do
  let needs ← collectNeeds action item
  if permissionAllows needs identity then pure () else .error .permissionDenied

/-! ## Schema: `TodoSchema`

`id = ma.fields.Int(required=True)`, `title = ma.fields.String(required=True)`,
`priority = ma.fields.Int(missing=3)`.  Raw input values are embedded as
integers or strings. -/

/-- A raw input value supplied to the schema. -/
inductive Value where
  | vInt (n : Int)
  | vStr (s : String)
deriving DecidableEq

/-- Raw input to `create`: an ordered mapping from field name to value. -/
abbrev RawData := List (String × Value)

/-- Lookup of a field in the raw input. -/
def rawGet (data : RawData) (k : String) : Option Value :=
  (data.find? (fun e => e.1 = k)).map (·.2)

/-- Decimal digits of a candidate integer literal: `none` when the list
is empty or contains a non-digit character. -/
def decDigits? (cs : List Char) : Option Nat :=
  match cs with
  | [] => none
  | _ => cs.foldl
      (fun acc c => acc.bind
        (fun n => if c.isDigit then some (n * 10 + (c.toNat - 48)) else none))
      (some 0)

/-- Python's `int(string)` conversion on a decimal literal with an
optional leading minus sign (the coercion marshmallow's `Int` field
applies to string input). -/
def strToInt? (s : String) : Option Int :=
  match s.data with
  | '-' :: rest => (decDigits? rest).map (fun n => -(n : Int))
  | _ => (decDigits? s.data).map (fun n => (n : Int))

/-- Modelled from the spec: marshmallow's `Int` field deserialization is
not part of the repository's sources.  It accepts integers and strings
convertible to an integer; anything else is a `ValidationError`. -/
def fieldInt : Value → Except AppError Int
  | .vInt n => .ok n
  | .vStr s =>
    match strToInt? s with
    | some n => .ok n
    | none => .error .validationError

/-- Modelled from the spec: marshmallow's `String` field deserialization
is not part of the repository's sources.  It accepts only strings. -/
def fieldStr : Value → Except AppError String
  | .vStr s => .ok s
  | .vInt _ => .error .validationError

/-- The typed output of `TodoSchema().load(data)`. -/
structure LoadedTodo where
  id : Int
  title : String
  priority : Int
deriving DecidableEq

/-- `TodoSchema().load(data)`: `id` required integer, `title` required
string, `priority` integer defaulting to 3; unknown fields raise (the
schema sets no `Meta.unknown`, so marshmallow's default `RAISE`
applies). -/
def schemaLoad (data : RawData) : Except AppError LoadedTodo :=
  if data.any (fun e => e.1 ≠ "id" ∧ e.1 ≠ "title" ∧ e.1 ≠ "priority") then
    .error .validationError
  else
    match rawGet data "id" with
    | none => .error .validationError
    | some vid =>
      match fieldInt vid with
      | .error e => .error e
      | .ok idVal =>
        match rawGet data "title" with
        | none => .error .validationError
        | some vt =>
          match fieldStr vt with
          | .error e => .error e
          | .ok titleVal =>
            match rawGet data "priority" with
            | none => .ok { id := idVal, title := titleVal, priority := 3 }
            | some vp =>
              match fieldInt vp with
              | .error e => .error e
              | .ok priorityVal =>
                .ok { id := idVal, title := titleVal, priority := priorityVal }

/-! ## Service layer: `TodoService` -/

/-- The service result wrapper `TodoItemResult(item, identity, links_tpl)`:
it holds references to the item and identity (the link-template
configuration is fixed, `links_item`, so it is not carried here). -/
structure TodoItemResult where
  item : TodoItem
  identity : Identity
deriving DecidableEq

/-- `TodoService.create(identity, data)`: check the "create" permission,
load the data through the schema, construct the `TodoItem` with
`user_id = identity.id`, add it to the database, and wrap it.  Returns
the wrapped item together with the updated store. -/
def TodoService.create (db : Db) (identity : Identity) (data : RawData) :
    Except AppError (TodoItemResult × Db) := do
  requirePermission identity .create none
  let obj ← schemaLoad data
  let item : TodoItem :=
    { id := obj.id, title := obj.title, priority := obj.priority
      user_id := identity.id }
  let db' := TodoDatabase.add db item
  pure ({ item := item, identity := identity }, db')

/-- `TodoService.read(identity, id_)`: fetch from the data layer (which
raises `NoResultError` when absent), then check the "read" permission
with the fetched item, then wrap. -/
def TodoService.read (db : Db) (identity : Identity) (id_ : Int) :
    Except AppError TodoItemResult := do
  let item ← TodoDatabase.get db id_
  requirePermission identity .read (some item)
  pure { item := item, identity := identity }

/-! ## Pagination calculator

Invenio's `Pagination(size, page, total)` is an external collaborator
whose source is not in the repository; it is modelled from the spec:
derived `from_idx = (page-1)*size` and `to_idx = from_idx+size`, both
clamped into the interval from 0 to total, `has_prev = page>1`,
`has_next = to_idx<total`, and construction fails with an
`InvalidArgument` condition when `size < 1` or `page < 1`. -/

/-- A validated pagination window (spec's PaginationWindow). -/
structure Pagination where
  size : Int
  page : Int
  total : Int
deriving DecidableEq

/-- Modelled from the spec: the pagination calculator's guarded
constructor — fails with `InvalidArgument` when `size < 1` or
`page < 1`, even when called directly. -/
def Pagination.compute (size page total : Int) : Except AppError Pagination :=
  if size < 1 || page < 1 then .error .invalidArgument
  else .ok { size := size, page := page, total := total }

/-- Modelled from the spec: start index `(page-1)*size`, clamped into
the interval from 0 to `total`. -/
def Pagination.from_idx (p : Pagination) : Int :=
  max 0 (min ((p.page - 1) * p.size) p.total)

/-- Modelled from the spec: stop index (non-inclusive)
`(page-1)*size + size`, clamped into the interval from 0 to `total`. -/
def Pagination.to_idx (p : Pagination) : Int :=
  max 0 (min ((p.page - 1) * p.size + p.size) p.total)

/-- Modelled from the spec: `has_prev = page > 1`. -/
def Pagination.has_prev (p : Pagination) : Bool :=
  1 < p.page

/-- Modelled from the spec: `has_next = to_idx < total`. -/
def Pagination.has_next (p : Pagination) : Bool :=
  p.to_idx < p.total

/-- The previous page (used by the "prev" search link, guarded by
`has_prev`). -/
def Pagination.prev_page (p : Pagination) : Pagination :=
  { size := p.size, page := p.page - 1, total := p.total }

/-- The next page (used by the "next" search link, guarded by
`has_next`). -/
def Pagination.next_page (p : Pagination) : Pagination :=
  { size := p.size, page := p.page + 1, total := p.total }

/-! ## Link templates

The configuration defines `links_item` (one "self" link over an item
context) and `links_search` (prev/self/next links over a pagination
context, whose vars functions mutate the variable bag's "args" dict).
Invenio's `Link.expand` builds a fresh variable bag per link and
deep-copies the expansion context into it before the link's vars
function mutates it; to make the sharing of the context's "args" dict
observable we run the search-link expansion over an explicit heap of
dict cells, where the deep copy allocates a fresh cell. -/

/-- The site API prefix bound to the template variable `api`
(`SITE_API_URL` in the app config). -/
def siteApiUrl : String := "http://127.0.0.1:5000"

/-- Modelled from the spec: expansion of the configured `links_item`
— one "self" link whose URI template appends `/todos/` and the item id
(bound by the link's vars function) to the api prefix. -/
def linksItemExpand (item : TodoItem) : List (String × String) :=
  [("self", siteApiUrl ++ "/todos/" ++ toString item.id)]

/-- A query-args dict: ordered mapping from parameter name to integer
value (the search params are `page` and `size`). -/
abbrev Args := List (String × Int)

/-- Python dict update `d[k] = v` on an args dict: replace in place when
present, append otherwise. -/
def argsSet (a : Args) (k : String) (v : Int) : Args :=
  if a.any (fun e => e.1 = k) then
    a.map (fun e => if e.1 = k then (k, v) else e)
  else
    a ++ [(k, v)]

/-- A heap of mutable args dicts, addressed by index; models Python
object identity for the dicts the link vars functions mutate. -/
abbrev ArgsHeap := List Args

/-- Read the dict stored at an address. -/
def ArgsHeap.readCell (h : ArgsHeap) (r : Nat) : Args :=
  h.getD r []

/-- Overwrite the dict stored at an address. -/
def ArgsHeap.writeCell (h : ArgsHeap) (r : Nat) (a : Args) : ArgsHeap :=
  h.set r a

/-- Allocate a fresh dict, returning the extended heap and its
address. -/
def ArgsHeap.alloc (h : ArgsHeap) (a : Args) : ArgsHeap × Nat :=
  (h ++ [a], h.length)

/-- The three relations of `links_search`, in the configuration dict's
order. -/
inductive SearchRel where
  | prev
  | self
  | next
deriving DecidableEq

/-- The relation name under which each search link is emitted. -/
def searchRelName : SearchRel → String
  | .prev => "prev"
  | .self => "self"
  | .next => "next"

/-- The `when` guard of each search link: "prev" renders only when
`pagination.has_prev`, "next" only when `pagination.has_next`, "self"
always. -/
def searchLinkWhen : SearchRel → Pagination → Bool
  | .prev, p => p.has_prev
  | .self, _ => true
  | .next, p => p.has_next

/-- The `vars` function of each search link, as a transformation of the
bag's "args" dict: "prev" sets `page` to `pagination.prev_page.page`,
"next" sets it to `pagination.next_page.page`, "self" has no vars
function. -/
def searchLinkVars : SearchRel → Pagination → Args → Args
  | .prev, p, a => argsSet a "page" p.prev_page.page
  | .self, _, a => a
  | .next, p, a => argsSet a "page" p.next_page.page

/-- Render the query-string part of the search URI template: empty for
an empty args dict, otherwise a question mark followed by
ampersand-joined `name=value` pairs in dict order. -/
def renderQuery (a : Args) : String :=
  match a with
  | [] => ""
  | _ => "?" ++ String.intercalate "&" (a.map (fun e => e.1 ++ "=" ++ toString e.2))

/-- Modelled from the spec: `Link.expand` for one search link — build a
fresh variable bag by deep-copying the context (so the bag's "args"
dict is a fresh cell, not an alias of the context's dict at address
`ctxArgs`), apply the link's vars function to the fresh cell, then
expand the URI template with the bag's args. -/
def searchLinkExpand (rel : SearchRel) (p : Pagination) (h : ArgsHeap)
    (ctxArgs : Nat) : String × ArgsHeap :=
  let copied := ArgsHeap.alloc h (h.readCell ctxArgs)
  let h1 := copied.1
  let bag := copied.2
  let h2 := h1.writeCell bag (searchLinkVars rel p (h1.readCell bag))
  (siteApiUrl ++ "/todos" ++ renderQuery (h2.readCell bag), h2)

/-- Modelled from the spec: `LinksTemplate(links_search, context).expand
(pagination)` — iterate the templates in configuration order, skip a
link whose guard is false, and thread the heap through the per-link
expansions.  `ctxArgs` is the address of the dict the context's "args"
entry refers to (the list result's params dict). -/
def linksSearchExpand (p : Pagination) (h : ArgsHeap) (ctxArgs : Nat) :
    List (String × String) × ArgsHeap :=
  [SearchRel.prev, SearchRel.self, SearchRel.next].foldl
    (fun acc rel =>
      if searchLinkWhen rel p then
        let res := searchLinkExpand rel p acc.2 ctxArgs
        (acc.1 ++ [(searchRelName rel, res.1)], res.2)
      else acc)
    ([], h)

/-! ## Result representations (`to_dict`) -/

/-- A JSON-like representation value, the shape `to_dict` produces. -/
inductive DVal where
  | dInt (n : Int)
  | dStr (s : String)
  | dBool (b : Bool)
  | dDict (entries : List (String × DVal))
  | dArr (elems : List DVal)

/-- A link mapping as a dict of string values. -/
def linksToDVal (ls : List (String × String)) : List (String × DVal) :=
  ls.map (fun e => (e.1, DVal.dStr e.2))

/-- `TodoItemResult.to_dict`: the dict literal with keys `id`, `title`,
`priority`, `is_owner` (identity id compared with the item's user id,
recomputed here on each call) and `links` (expansion of `links_item`
with the item as context). -/
def TodoItemResult.to_dict (r : TodoItemResult) : List (String × DVal) :=
  [("id", DVal.dInt r.item.id),
   ("title", DVal.dStr r.item.title),
   ("priority", DVal.dInt r.item.priority),
   ("is_owner", DVal.dBool (decide (r.identity.id = r.item.user_id))),
   ("links", DVal.dDict (linksToDVal (linksItemExpand r.item)))]

/-- The service result wrapper `TodoListResult`: the full item list, the
identity, and the params dict entries (`TodoService.search` always
builds `params` as the dict with keys "page" and "size", in that
order). -/
structure TodoListResult where
  item_list : List TodoItem
  identity : Identity
  page : Int
  size : Int

/-- The params dict `page`/`size` exactly as `TodoService.search` builds
it. -/
def TodoListResult.paramsArgs (r : TodoListResult) : Args :=
  [("page", r.page), ("size", r.size)]

/-- Python list slicing `items[fromIdx:toIdx]` for clamped non-negative
bounds. -/
def sliceList (items : List TodoItem) (fromIdx toIdx : Int) : List TodoItem :=
  (items.drop fromIdx.toNat).take (toIdx - fromIdx).toNat

/-- `TodoListResult.to_dict`: total is the full list's length, the
pagination window is computed from the params, each item of the sliced
window is dumped through `TodoItemResult.to_dict` in slice order, and
`links_search` is expanded with the pagination as context and the params
dict as the context's "args" (the expansion runs in a one-cell heap
holding that dict). -/
def TodoListResult.to_dict (r : TodoListResult) :
    Except AppError (List (String × DVal)) :=
  match Pagination.compute r.size r.page (r.item_list.length : Int) with
  | .error e => .error e
  | .ok pagination =>
    .ok [("hits", DVal.dDict
            [("hits", DVal.dArr
                ((sliceList r.item_list pagination.from_idx pagination.to_idx).map
                  (fun item => DVal.dDict (TodoItemResult.to_dict
                    { item := item, identity := r.identity })))),
             ("total", DVal.dInt (r.item_list.length : Int))]),
         ("links", DVal.dDict (linksToDVal
           (linksSearchExpand pagination [r.paramsArgs] 0).1))]

/-- `TodoService.search(identity, page, size)`: check the "search"
permission, enumerate the identity's items, and wrap them with the
params in a list result. -/
def TodoService.search (db : Db) (identity : Identity) (page size : Int) :
    Except AppError TodoListResult := do
  requirePermission identity .search none
  let item_list := TodoDatabase.get_all db identity.id
  pure { item_list := item_list, identity := identity, page := page, size := size }

/-- Lookup in a `to_dict` representation. -/
def dvalGet (d : List (String × DVal)) (k : String) : Option DVal :=
  (d.find? (fun e => e.1 = k)).map (·.2)

/-- The store invariant: keys are pairwise distinct (at most one item
per id) and every stored item is keyed by its own id. -/
def dbWellKeyed (db : Db) : Prop :=
  (db.map Prod.fst).Nodup ∧ ∀ e ∈ db, e.2.id = e.1

/-! ## Helper lemmas about the store -/

lemma dictGet_map_replace_ne (db : Db) (k k' : Int) (v : TodoItem)
    (hne : k' ≠ k) :
    dictGet (db.map (fun e => if e.1 = k then (k, v) else e)) k' =
      dictGet db k' := by
  induction db with
  | nil => rfl
  | cons e rest ih =>
    by_cases he : e.1 = k
    · have h1 : (decide (k = k')) = false := by
        simp only [decide_eq_false_iff_not]
        exact fun h => hne h.symm
      have h2 : (decide (e.1 = k')) = false := by
        simp only [decide_eq_false_iff_not]
        intro h
        exact hne (h ▸ he)
      simp only [dictGet, List.map_cons, if_pos he, List.find?_cons, h1, h2]
      exact ih
    · simp only [dictGet, List.map_cons, if_neg he, List.find?_cons]
      cases hk : decide (e.1 = k') with
      | true => simp
      | false => exact ih

lemma dictGet_map_replace_self (db : Db) (k : Int) (v : TodoItem)
    (h : db.any (fun e => e.1 = k)) :
    dictGet (db.map (fun e => if e.1 = k then (k, v) else e)) k = some v := by
  induction db with
  | nil => simp at h
  | cons e rest ih =>
    by_cases he : e.1 = k
    · simp [dictGet, List.map_cons, if_pos he, List.find?_cons]
    · have he' : (decide (e.1 = k)) = false := by simp [he]
      simp only [List.any_cons, Bool.or_eq_true, decide_eq_true_eq] at h
      rcases h with h | h
      · exact absurd h he
      · simp only [dictGet, List.map_cons, if_neg he, List.find?_cons, he']
        exact ih h

lemma dictGet_append_single (db : Db) (k k' : Int) (v : TodoItem) :
    dictGet (db ++ [(k, v)]) k' =
      match dictGet db k' with
      | some w => some w
      | none => if k = k' then some v else none := by
  induction db with
  | nil => by_cases hk : k = k' <;> simp [dictGet, List.find?, hk]
  | cons e rest ih =>
    simp only [dictGet, List.cons_append, List.find?_cons] at *
    cases hk : decide (e.1 = k') with
    | true => simp
    | false => exact ih

lemma any_eq_false_not_mem (db : Db) (k : Int)
    (h : db.any (fun e => e.1 = k) = false) :
    dictGet db k = none := by
  induction db with
  | nil => rfl
  | cons e rest ih =>
    simp only [List.any_cons, Bool.or_eq_false_iff, decide_eq_false_iff_not] at h
    simp only [dictGet, List.find?_cons]
    have : (decide (e.1 = k)) = false := by simp [h.1]
    rw [this]
    exact ih h.2

lemma dictGet_dictSet (db : Db) (k k' : Int) (v : TodoItem) :
    dictGet (dictSet db k v) k' = if k' = k then some v else dictGet db k' := by
  unfold dictSet
  by_cases hany : db.any (fun e => e.1 = k)
  · rw [if_pos hany]
    by_cases hk : k' = k
    · subst hk
      rw [if_pos rfl]
      exact dictGet_map_replace_self db k' v hany
    · rw [if_neg hk]
      exact dictGet_map_replace_ne db k k' v hk
  · rw [if_neg hany]
    rw [dictGet_append_single]
    by_cases hk : k' = k
    · subst hk
      rw [any_eq_false_not_mem db k' (by rwa [Bool.not_eq_true] at hany)]
    · have hk2 : ¬ k = k' := fun h => hk h.symm
      cases hg : dictGet db k'
      · simp [hk, hk2]
      · simp [hk]

lemma dictSet_wellKeyed (db : Db) (k : Int) (v : TodoItem)
    (h : dbWellKeyed db) (hv : v.id = k) : dbWellKeyed (dictSet db k v) := by
  obtain ⟨hnd, hkeys⟩ := h
  unfold dictSet
  by_cases hany : db.any (fun e => e.1 = k)
  · rw [if_pos hany]
    constructor
    · have : (db.map (fun e => if e.1 = k then (k, v) else e)).map Prod.fst =
          db.map Prod.fst := by
        rw [List.map_map]
        apply List.map_congr_left
        intro e _
        by_cases he : e.1 = k <;> simp [he]
      rw [this]
      exact hnd
    · intro e he
      rw [List.mem_map] at he
      obtain ⟨e0, he0, heq⟩ := he
      by_cases h0 : e0.1 = k
      · rw [if_pos h0] at heq
        rw [← heq]
        exact hv
      · rw [if_neg h0] at heq
        rw [← heq]
        exact hkeys e0 he0
  · rw [if_neg hany]
    constructor
    · rw [List.map_append, List.nodup_append]
      refine ⟨hnd, by simp, ?_⟩
      intro a ha hb
      simp only [List.map_cons, List.map_nil, List.mem_singleton] at hb
      rw [List.mem_map] at ha
      obtain ⟨e0, he0, he0k⟩ := ha
      have h2 : ¬ (e0.1 = k) := by
        intro hk0
        apply hany
        rw [List.any_eq_true]
        exact ⟨e0, he0, by simpa using hk0⟩
      exact h2 (he0k.trans hb)
    · intro e he
      rw [List.mem_append] at he
      rcases he with he | he
      · exact hkeys e he
      · simp only [List.mem_singleton] at he
        rw [he]
        exact hv

/-! ## Helper lemmas about the permission policy and the service -/

lemma collectNeeds_create (item : Option TodoItem) :
    collectNeeds .create item = .ok [Need.roleNeed "authenticated_user"] := rfl

lemma collectNeeds_read (item : TodoItem) :
    collectNeeds .read (some item) = .ok [Need.userNeed item.user_id] := rfl

lemma collectNeeds_search (item : Option TodoItem) :
    collectNeeds .search item = .ok [] := rfl

lemma permissionAllows_iff (needs : List Need) (identity : Identity) :
    permissionAllows needs identity = true ↔
      needs = [] ∨ ∃ n, n ∈ needs ∧ n ∈ identity.provides := by
  unfold permissionAllows
  rw [Bool.or_eq_true, List.isEmpty_iff, List.any_eq_true]
  constructor
  · rintro (h | ⟨n, hn, hc⟩)
    · exact Or.inl h
    · exact Or.inr ⟨n, hn, by simpa [List.elem_iff] using hc⟩
  · rintro (h | ⟨n, hn, hc⟩)
    · exact Or.inl h
    · exact Or.inr ⟨n, hn, by simpa [List.elem_iff] using hc⟩

lemma requirePermission_ok_iff (identity : Identity) (action : Action)
    (item : Option TodoItem) (ns : List Need)
    (h : collectNeeds action item = .ok ns) :
    requirePermission identity action item = .ok () ↔
      ns = [] ∨ ∃ n, n ∈ ns ∧ n ∈ identity.provides := by
  unfold requirePermission
  rw [h]
  show (if permissionAllows ns identity then Except.ok () else
    Except.error AppError.permissionDenied) = Except.ok () ↔ _
  rw [← permissionAllows_iff]
  by_cases hp : permissionAllows ns identity
  · simp [hp]
  · simp [hp]

lemma requirePermission_eq (identity : Identity) (action : Action)
    (item : Option TodoItem) (ns : List Need)
    (h : collectNeeds action item = .ok ns) :
    requirePermission identity action item =
      (if permissionAllows ns identity then .ok ()
       else .error .permissionDenied) := by
  unfold requirePermission
  rw [h]
  rfl

lemma requirePermission_create_eq (identity : Identity) :
    requirePermission identity .create none =
      (if Need.roleNeed "authenticated_user" ∈ identity.provides then .ok ()
       else .error .permissionDenied) := by
  rw [requirePermission_eq identity .create none _ (collectNeeds_create none)]
  unfold permissionAllows
  simp [List.elem_iff]

lemma requirePermission_read_eq (identity : Identity) (item : TodoItem) :
    requirePermission identity .read (some item) =
      (if Need.userNeed item.user_id ∈ identity.provides then .ok ()
       else .error .permissionDenied) := by
  rw [requirePermission_eq identity .read (some item) _ (collectNeeds_read item)]
  unfold permissionAllows
  simp [List.elem_iff]

lemma read_absent (db : Db) (identity : Identity) (id_ : Int)
    (h : dictGet db id_ = none) :
    TodoService.read db identity id_ = .error (.noResult id_) := by
  unfold TodoService.read TodoDatabase.get
  rw [h]
  rfl

lemma read_present (db : Db) (identity : Identity) (id_ : Int)
    (item : TodoItem) (h : dictGet db id_ = some item) :
    TodoService.read db identity id_ =
      (if Need.userNeed item.user_id ∈ identity.provides
       then .ok { item := item, identity := identity }
       else .error .permissionDenied) := by
  unfold TodoService.read TodoDatabase.get
  rw [h]
  show (requirePermission identity .read (some item)).bind _ = _
  rw [requirePermission_read_eq]
  by_cases hp : Need.userNeed item.user_id ∈ identity.provides
  · rw [if_pos hp, if_pos hp]
    rfl
  · rw [if_neg hp, if_neg hp]
    rfl

lemma create_eq_ok_iff (db : Db) (identity : Identity) (data : RawData)
    (res : TodoItemResult × Db) :
    TodoService.create db identity data = .ok res ↔
      requirePermission identity .create none = .ok () ∧
      ∃ obj, schemaLoad data = .ok obj ∧
        res = ({ item := { id := obj.id, title := obj.title,
                           priority := obj.priority, user_id := identity.id }
                 identity := identity },
               TodoDatabase.add db
                 { id := obj.id, title := obj.title,
                   priority := obj.priority, user_id := identity.id }) := by
  unfold TodoService.create
  cases hp : requirePermission identity .create none with
  | error e =>
    show Except.error e = Except.ok res ↔ _
    simp [hp]
  | ok u =>
    cases u
    show (schemaLoad data).bind _ = Except.ok res ↔ _
    cases hs : schemaLoad data with
    | error e =>
      show Except.error e = Except.ok res ↔ _
      simp
    | ok obj =>
      show Except.ok _ = Except.ok res ↔ _
      constructor
      · intro h
        refine ⟨rfl, obj, rfl, ?_⟩
        exact (Except.ok.inj h).symm
      · rintro ⟨-, obj', hobj', hres⟩
        cases Except.ok.inj hobj'
        rw [hres]

lemma create_error_cases (db : Db) (identity : Identity) (data : RawData) :
    (requirePermission identity .create none = .error .permissionDenied →
      TodoService.create db identity data = .error .permissionDenied)
    ∧ (requirePermission identity .create none = .ok () →
        ∀ e, schemaLoad data = .error e →
          TodoService.create db identity data = .error e) := by
  constructor
  · intro hp
    unfold TodoService.create
    rw [hp]
    rfl
  · intro hp e hs
    unfold TodoService.create
    rw [hp]
    show (schemaLoad data).bind _ = _
    rw [hs]
    rfl

/-! ## Helper lemmas about link expansion -/

/-- The URI a search link renders when the bag's args dict holds `a`. -/
def searchLinkUri (rel : SearchRel) (p : Pagination) (a : Args) : String :=
  siteApiUrl ++ "/todos" ++ renderQuery (searchLinkVars rel p a)

/-- The expected search-link mapping when the context's args dict holds
`a`: "prev" and "next" present exactly when their guards hold. -/
def searchLinksOf (p : Pagination) (a : Args) : List (String × String) :=
  (if p.has_prev then [("prev", searchLinkUri .prev p a)] else []) ++
  [("self", searchLinkUri .self p a)] ++
  (if p.has_next then [("next", searchLinkUri .next p a)] else [])

lemma readCell_append_self (h : ArgsHeap) (a : Args) :
    (h ++ [a]).readCell h.length = a := by
  induction h with
  | nil => rfl
  | cons x xs ih =>
    show (xs ++ [a]).getD xs.length [] = a
    exact ih

lemma readCell_append_left (h l : ArgsHeap) (c : Nat) (hc : c < h.length) :
    (h ++ l).readCell c = h.readCell c := by
  induction h generalizing c with
  | nil => exact absurd hc (Nat.not_lt_zero c)
  | cons x xs ih =>
    cases c with
    | zero => rfl
    | succ n =>
      show (xs ++ l).getD n [] = xs.getD n []
      exact ih n (Nat.lt_of_succ_lt_succ hc)

lemma set_append_self (h : ArgsHeap) (a b : Args) :
    (h ++ [a]).set h.length b = h ++ [b] := by
  induction h with
  | nil => rfl
  | cons x xs ih =>
    show x :: (xs ++ [a]).set xs.length b = x :: (xs ++ [b])
    rw [ih]

lemma searchLinkExpand_fst (rel : SearchRel) (p : Pagination) (h : ArgsHeap)
    (r : Nat) :
    (searchLinkExpand rel p h r).1 = searchLinkUri rel p (h.readCell r) := by
  unfold searchLinkExpand searchLinkUri ArgsHeap.alloc ArgsHeap.writeCell
  dsimp only
  rw [readCell_append_self, set_append_self, readCell_append_self]

lemma searchLinkExpand_snd (rel : SearchRel) (p : Pagination) (h : ArgsHeap)
    (r : Nat) :
    (searchLinkExpand rel p h r).2 = h ++ [searchLinkVars rel p (h.readCell r)] := by
  unfold searchLinkExpand ArgsHeap.alloc ArgsHeap.writeCell
  dsimp only
  rw [readCell_append_self, set_append_self]

/-- The fold underlying `linksSearchExpand`, abstracted over the list of
relations and the accumulator. -/
def foldExpand (rels : List SearchRel) (p : Pagination)
    (st : List (String × String) × ArgsHeap) (r : Nat) :
    List (String × String) × ArgsHeap :=
  rels.foldl
    (fun acc rel =>
      if searchLinkWhen rel p then
        let res := searchLinkExpand rel p acc.2 r
        (acc.1 ++ [(searchRelName rel, res.1)], res.2)
      else acc)
    st

lemma linksSearchExpand_eq_foldExpand (p : Pagination) (h : ArgsHeap)
    (r : Nat) :
    linksSearchExpand p h r =
      foldExpand [SearchRel.prev, SearchRel.self, SearchRel.next] p ([], h) r :=
  rfl

lemma foldExpand_spec (rels : List SearchRel) (p : Pagination)
    (acc : List (String × String)) (h : ArgsHeap) (r : Nat)
    (hr : r < h.length) :
    (foldExpand rels p (acc, h) r).1 =
      acc ++ (rels.filter (fun rel => searchLinkWhen rel p)).map
        (fun rel => (searchRelName rel, searchLinkUri rel p (h.readCell r)))
    ∧ h.length ≤ (foldExpand rels p (acc, h) r).2.length
    ∧ ∀ c, c < h.length →
        (foldExpand rels p (acc, h) r).2.readCell c = h.readCell c := by
  induction rels generalizing acc h with
  | nil =>
    refine ⟨by simp [foldExpand], Nat.le_refl _, fun c _ => rfl⟩
  | cons rel rest ih =>
    have hunf : foldExpand (rel :: rest) p (acc, h) r =
        foldExpand rest p
          (if searchLinkWhen rel p then
            (acc ++ [(searchRelName rel, (searchLinkExpand rel p h r).1)],
             (searchLinkExpand rel p h r).2)
          else (acc, h)) r := rfl
    by_cases hw : searchLinkWhen rel p
    · rw [hunf, if_pos hw, searchLinkExpand_fst, searchLinkExpand_snd]
      have hr' : r < (h ++ [searchLinkVars rel p (h.readCell r)]).length := by
        rw [List.length_append]
        exact Nat.lt_of_lt_of_le hr (Nat.le_add_right _ _)
      have hread : (h ++ [searchLinkVars rel p (h.readCell r)]).readCell r =
          h.readCell r := readCell_append_left h _ r hr
      obtain ⟨h1, h2, h3⟩ := ih
        (acc ++ [(searchRelName rel, searchLinkUri rel p (h.readCell r))])
        (h ++ [searchLinkVars rel p (h.readCell r)]) hr'
      refine ⟨?_, ?_, ?_⟩
      · rw [h1, hread, List.filter_cons_of_pos (by simpa using hw),
          List.map_cons, List.append_assoc]
        rfl
      · calc h.length ≤ (h ++ [searchLinkVars rel p (h.readCell r)]).length := by
              rw [List.length_append]; exact Nat.le_add_right _ _
          _ ≤ _ := h2
      · intro c hc
        rw [h3 c (by rw [List.length_append]; exact Nat.lt_of_lt_of_le hc (Nat.le_add_right _ _)),
          readCell_append_left h _ c hc]
    · rw [hunf, if_neg hw]
      obtain ⟨h1, h2, h3⟩ := ih acc h hr
      refine ⟨?_, h2, h3⟩
      rw [h1, List.filter_cons_of_neg (by simpa using hw)]

lemma searchLinksOf_eq_filter (p : Pagination) (a : Args) :
    searchLinksOf p a =
      ([SearchRel.prev, SearchRel.self, SearchRel.next].filter
        (fun rel => searchLinkWhen rel p)).map
          (fun rel => (searchRelName rel, searchLinkUri rel p a)) := by
  cases hp : p.has_prev <;> cases hn : p.has_next <;>
    simp [searchLinksOf, searchLinkWhen, hp, hn, List.filter, searchRelName]

lemma linksSearchExpand_spec (p : Pagination) (h : ArgsHeap) (r : Nat)
    (hr : r < h.length) :
    (linksSearchExpand p h r).1 = searchLinksOf p (h.readCell r)
    ∧ h.length ≤ (linksSearchExpand p h r).2.length
    ∧ ∀ c, c < h.length →
        (linksSearchExpand p h r).2.readCell c = h.readCell c := by
  rw [linksSearchExpand_eq_foldExpand, searchLinksOf_eq_filter]
  have := foldExpand_spec [SearchRel.prev, SearchRel.self, SearchRel.next]
    p [] h r hr
  simpa using this

/-! ## Helper lemmas about the schema -/

lemma fieldInt_vStr_none (s : String) (hs : strToInt? s = none) :
    fieldInt (Value.vStr s) = .error .validationError := by
  show ((match strToInt? s with
    | some n => Except.ok n
    | none => Except.error AppError.validationError : Except AppError Int)) = _
  rw [hs]

lemma fieldInt_vStr_some (s : String) (n : Int) (hs : strToInt? s = some n) :
    fieldInt (Value.vStr s) = .ok n := by
  show ((match strToInt? s with
    | some n => Except.ok n
    | none => Except.error AppError.validationError : Except AppError Int)) = _
  rw [hs]

lemma fieldInt_error (v : Value) (e : AppError) (h : fieldInt v = .error e) :
    e = .validationError := by
  cases v with
  | vInt n => exact absurd h (by simp [fieldInt])
  | vStr s =>
    cases hs : strToInt? s with
    | some n =>
      rw [fieldInt_vStr_some s n hs] at h
      exact absurd h (by simp)
    | none =>
      rw [fieldInt_vStr_none s hs] at h
      exact (Except.error.inj h).symm

lemma fieldStr_error (v : Value) (e : AppError) (h : fieldStr v = .error e) :
    e = .validationError := by
  cases v with
  | vStr s => exact absurd h (by simp [fieldStr])
  | vInt n => exact (Except.error.inj h).symm

lemma schemaLoad_missing_id (data : RawData) (h : rawGet data "id" = none) :
    schemaLoad data = .error .validationError := by
  unfold schemaLoad
  split
  · rfl
  · rw [h]

lemma schemaLoad_missing_title (data : RawData)
    (h : rawGet data "title" = none) :
    schemaLoad data = .error .validationError := by
  unfold schemaLoad
  split
  · rfl
  · cases hid : rawGet data "id" with
    | none => rfl
    | some vid =>
      dsimp only
      cases hf : fieldInt vid with
      | error e =>
        dsimp only
        rw [fieldInt_error vid e hf]
      | ok n =>
        dsimp only
        rw [h]

lemma schemaLoad_bad_id (data : RawData) (s : String)
    (h : rawGet data "id" = some (.vStr s)) (hs : strToInt? s = none) :
    schemaLoad data = .error .validationError := by
  unfold schemaLoad
  split
  · rfl
  · rw [h]
    dsimp only
    rw [fieldInt_vStr_none s hs]

lemma schemaLoad_bad_title (data : RawData) (n : Int)
    (h : rawGet data "title" = some (.vInt n)) :
    schemaLoad data = .error .validationError := by
  unfold schemaLoad
  split
  · rfl
  · cases hid : rawGet data "id" with
    | none => rfl
    | some vid =>
      dsimp only
      cases hf : fieldInt vid with
      | error e =>
        dsimp only
        rw [fieldInt_error vid e hf]
      | ok m =>
        dsimp only
        rw [h]
        rfl

lemma schemaLoad_priority_default (data : RawData) (obj : LoadedTodo)
    (hp : rawGet data "priority" = none) (h : schemaLoad data = .ok obj) :
    obj.priority = 3 := by
  unfold schemaLoad at h
  split at h
  · simp at h
  · split at h
    · simp at h
    · split at h
      · simp at h
      · split at h
        · simp at h
        · split at h
          · simp at h
          · split at h
            · rw [← Except.ok.inj h]
            · rename_i vp heq
              rw [hp] at heq
              exact Option.noConfusion heq

/-! ## Helper lemmas about pagination and the list representation -/

lemma pagination_compute_ok (size page total : Int) (hs : 1 ≤ size)
    (hp : 1 ≤ page) :
    Pagination.compute size page total =
      .ok { size := size, page := page, total := total } := by
  unfold Pagination.compute
  have hc : (decide (size < 1) || decide (page < 1)) = false := by
    simp only [Bool.or_eq_false_iff, decide_eq_false_iff_not, not_lt]
    exact ⟨hs, hp⟩
  rw [hc]
  rfl

lemma searchLinksOf_keys (p : Pagination) (a : Args) :
    (searchLinksOf p a).map Prod.fst =
      (if p.has_prev then ["prev"] else []) ++ ["self"] ++
      (if p.has_next then ["next"] else []) := by
  cases hp : p.has_prev <;> cases hn : p.has_next <;>
    simp [searchLinksOf, hp, hn]

lemma listToDict_ok (items : List TodoItem) (identity : Identity)
    (page size : Int) (p : Pagination)
    (hc : Pagination.compute size page (items.length : Int) = .ok p) :
    TodoListResult.to_dict
        { item_list := items, identity := identity, page := page, size := size } =
      .ok [("hits", DVal.dDict
              [("hits", DVal.dArr ((sliceList items p.from_idx p.to_idx).map
                  (fun it => DVal.dDict (TodoItemResult.to_dict
                    { item := it, identity := identity })))),
               ("total", DVal.dInt (items.length : Int))]),
           ("links", DVal.dDict (linksToDVal
              (searchLinksOf p [("page", page), ("size", size)])))] := by
  unfold TodoListResult.to_dict
  dsimp only [TodoListResult.paramsArgs]
  rw [hc]
  dsimp only
  have hl := (linksSearchExpand_spec p [[("page", page), ("size", size)]] 0
    (by simp)).1
  rw [hl]
  rfl

/-! ## Concrete fixtures used by the witnesses -/

/-- An item owned by user 5, as created via the service. -/
def itemW : TodoItem := { id := 1, title := "Test", priority := 1, user_id := some 5 }

/-- A second item owned by user 5. -/
def itemB : TodoItem := { id := 2, title := "B", priority := 2, user_id := some 5 }

/-- A previously stored item at id 1 owned by user 6. -/
def itemOld : TodoItem := { id := 1, title := "Old", priority := 2, user_id := some 6 }

/-- A store holding only `itemOld`. -/
def dbOldW : Db := [(1, itemOld)]

/-- The item user 5 stores over `itemOld`. -/
def itemNew : TodoItem := { id := 1, title := "New", priority := 3, user_id := some 5 }

/-- The result of user 5 re-creating id 1 over `dbOldW`. -/
def resW : TodoItemResult × Db :=
  ({ item := itemNew, identity := makeIdentity 5 }, [(1, itemNew)])

/-! ## Claim theorems -/

/-- C1: whenever the policy's needs collection for an action and an
optional item succeeds, the evaluator grants access iff the identity's
claims intersect the union of the need sets produced by the registered
generators (an OR across generators and needs); and the "search" action
has an empty generator list, yields an empty required-needs set and is
granted to every identity, including the anonymous one. -/
theorem permission_or_semantics_and_open_search :
    (∀ (action : Action) (identity : Identity) (item : Option TodoItem)
        (ns : List Need), collectNeeds action item = .ok ns →
        (requirePermission identity action item = .ok () ↔
          ns = [] ∨ ∃ n, n ∈ ns ∧ n ∈ identity.provides))
    ∧ canGenerators .search = []
    ∧ (∀ (identity : Identity) (item : Option TodoItem),
        collectNeeds .search item = .ok [] ∧
        requirePermission identity .search item = .ok ())
    ∧ requirePermission anonymousIdentity .search none = .ok () := by
  refine ⟨?_, rfl, ?_, rfl⟩
  · intro a identity item ns h
    exact requirePermission_ok_iff identity a item ns h
  · intro identity item
    exact ⟨collectNeeds_search item, rfl⟩

/-- Witness for the C1 theorem: the "read" action over a concrete item
owned by user 5, evaluated for the identity of user 5. -/
theorem permission_or_semantics_and_open_search_witness :
    requirePermission (makeIdentity 5) .read (some itemW) = .ok () ↔
      ([Need.userNeed (some 5)] = [] ∨
        ∃ n, n ∈ [Need.userNeed (some 5)] ∧ n ∈ (makeIdentity 5).provides) :=
  permission_or_semantics_and_open_search.1 .read (makeIdentity 5)
    (some itemW) [Need.userNeed (some 5)] rfl

/-- C2: `read` fetches from the store first and raises NotFound exactly
for an absent id; for an existing item the outcome is decided by
ownership — the identity built for user u succeeds iff the item's owner
is u, an identity without the owner's UserNeed gets PermissionDenied,
and an existing item never yields NotFound. -/
theorem read_fetch_then_ownership :
    ∀ (db : Db) (identity : Identity) (id_ : Int),
      (dictGet db id_ = none →
        TodoService.read db identity id_ = .error (.noResult id_))
      ∧ (∀ item, dictGet db id_ = some item →
          (Need.userNeed item.user_id ∈ identity.provides →
            TodoService.read db identity id_ =
              .ok { item := item, identity := identity })
          ∧ (Need.userNeed item.user_id ∉ identity.provides →
            TodoService.read db identity id_ = .error .permissionDenied)
          ∧ ∀ j, TodoService.read db identity id_ ≠ .error (.noResult j))
      ∧ (∀ (u : Int) item, dictGet db id_ = some item →
          (TodoService.read db (makeIdentity u) id_ =
              .ok { item := item, identity := makeIdentity u } ↔
            item.user_id = some u)) := by
  intro db identity id_
  refine ⟨read_absent db identity id_, ?_, ?_⟩
  · intro item hg
    rw [read_present db identity id_ item hg]
    by_cases hp : Need.userNeed item.user_id ∈ identity.provides
    · rw [if_pos hp]
      exact ⟨fun _ => rfl, fun hn => absurd hp hn,
        fun j h => Except.noConfusion h⟩
    · rw [if_neg hp]
      refine ⟨fun hn => absurd hn hp, fun _ => rfl, fun j h => ?_⟩
      exact AppError.noConfusion (Except.error.inj h)
  · intro u item hg
    rw [read_present db (makeIdentity u) id_ item hg]
    constructor
    · intro h
      by_cases hp : Need.userNeed item.user_id ∈ (makeIdentity u).provides
      · simp only [makeIdentity, List.mem_cons, List.mem_singleton,
          List.not_mem_nil, or_false] at hp
        rcases hp with hp | hp
        · exact Need.userNeed.inj hp
        · exact Need.noConfusion hp
      · rw [if_neg hp] at h
        exact Except.noConfusion h
    · intro hm
      rw [if_pos (by simp [makeIdentity, hm])]

/-- Witness for the C2 theorem: user 5 reads its own item, user 6 is
denied on the same existing item, and a missing id yields NotFound. -/
theorem read_fetch_then_ownership_witness :
    TodoService.read [(1, itemW)] (makeIdentity 5) 1 =
        .ok { item := itemW, identity := makeIdentity 5 }
    ∧ TodoService.read [(1, itemW)] (makeIdentity 6) 1 =
        .error .permissionDenied
    ∧ TodoService.read [(1, itemW)] (makeIdentity 6) 999 =
        .error (.noResult 999) :=
  ⟨((read_fetch_then_ownership [(1, itemW)] (makeIdentity 5) 1).2.1 itemW
      rfl).1 (by decide),
   ((read_fetch_then_ownership [(1, itemW)] (makeIdentity 6) 1).2.1 itemW
      rfl).2.1 (by decide),
   (read_fetch_then_ownership [(1, itemW)] (makeIdentity 6) 999).1 rfl⟩

/-- C3 counterexample: the claim predicts that an input failing
validation presented by an identity failing authorization raises
ValidationError; on the code, the anonymous identity with an empty
(invalid) input gets PermissionDenied, because `create` checks the
permission before loading the schema. -/
theorem create_validation_order_counterexample :
    TodoService.create [] anonymousIdentity [] = .error .permissionDenied
    ∧ schemaLoad [] = .error .validationError
    ∧ TodoService.create [] anonymousIdentity [] ≠ .error .validationError := by
  refine ⟨rfl, rfl, ?_⟩
  intro h
  have h1 : TodoService.create [] anonymousIdentity [] =
      .error .permissionDenied := rfl
  rw [h1] at h
  exact AppError.noConfusion (Except.error.inj h)

/-- C3 amended: `create` authorizes FIRST (with no item) and validates
second — authorization succeeds iff the identity holds the
authenticated-user role; when it fails the error is PermissionDenied
even for invalid data; when it succeeds a schema failure surfaces as
ValidationError; and when both succeed the item is constructed with
`user_id = identity.id`, stored, and wrapped. -/
theorem create_authorize_before_validate :
    ∀ (db : Db) (identity : Identity) (data : RawData),
      (requirePermission identity .create none = .ok () ↔
        Need.roleNeed "authenticated_user" ∈ identity.provides)
      ∧ (requirePermission identity .create none = .error .permissionDenied →
          TodoService.create db identity data = .error .permissionDenied)
      ∧ (requirePermission identity .create none = .ok () →
          ∀ e, schemaLoad data = .error e →
            TodoService.create db identity data = .error e)
      ∧ (requirePermission identity .create none = .ok () →
          ∀ obj, schemaLoad data = .ok obj →
            TodoService.create db identity data =
              .ok ({ item := { id := obj.id, title := obj.title,
                               priority := obj.priority, user_id := identity.id }
                     identity := identity },
                   TodoDatabase.add db
                     { id := obj.id, title := obj.title,
                       priority := obj.priority, user_id := identity.id })) := by
  intro db identity data
  refine ⟨?_, (create_error_cases db identity data).1,
    (create_error_cases db identity data).2, ?_⟩
  · rw [requirePermission_create_eq]
    by_cases hp : Need.roleNeed "authenticated_user" ∈ identity.provides
    · simp [hp]
    · simp [hp]
  · intro hp obj hobj
    exact (create_eq_ok_iff db identity data _).mpr ⟨hp, obj, hobj, rfl⟩

/-- Witness for the C3 amended theorem: user 1 creates a valid item and
the stored owner is user 1. -/
theorem create_authorize_before_validate_witness :
    TodoService.create [] (makeIdentity 1)
        [("id", Value.vInt 1), ("title", Value.vStr "Test")] =
      .ok ({ item := { id := 1, title := "Test", priority := 3,
                       user_id := some 1 }
             identity := makeIdentity 1 },
           TodoDatabase.add []
             { id := 1, title := "Test", priority := 3, user_id := some 1 }) :=
  (create_authorize_before_validate [] (makeIdentity 1)
      [("id", Value.vInt 1), ("title", Value.vStr "Test")]).2.2.2 rfl
    { id := 1, title := "Test", priority := 3 } rfl

/-- C4: search-link expansion is pure and idempotent — expanding the
configured search links leaves the context's shared args dict unchanged
(the variable bag is a deep copy, so the vars functions that bind the
prev/next page numbers never write back into the context), and a second
expansion over the same context produces the identical link mapping. -/
theorem links_search_expand_pure_idempotent :
    ∀ (p : Pagination) (h : ArgsHeap) (r : Nat), r < h.length →
      (linksSearchExpand p h r).2.readCell r = h.readCell r
      ∧ (linksSearchExpand p (linksSearchExpand p h r).2 r).1 =
          (linksSearchExpand p h r).1 := by
  intro p h r hr
  obtain ⟨h1, h2, h3⟩ := linksSearchExpand_spec p h r hr
  have hr2 : r < (linksSearchExpand p h r).2.length := Nat.lt_of_lt_of_le hr h2
  obtain ⟨g1, g2, g3⟩ := linksSearchExpand_spec p (linksSearchExpand p h r).2 r hr2
  exact ⟨h3 r hr, by rw [g1, h1, h3 r hr]⟩

/-- Witness for the C4 theorem: the pagination context of page 2 with
10 per page over 25 results, expanded over a one-cell heap holding the
params dict. -/
theorem links_search_expand_pure_idempotent_witness :
    (linksSearchExpand { size := 10, page := 2, total := 25 }
        [[("page", 2), ("size", 10)]] 0).2.readCell 0 =
      ArgsHeap.readCell [[("page", 2), ("size", 10)]] 0
    ∧ (linksSearchExpand { size := 10, page := 2, total := 25 }
        (linksSearchExpand { size := 10, page := 2, total := 25 }
          [[("page", 2), ("size", 10)]] 0).2 0).1 =
      (linksSearchExpand { size := 10, page := 2, total := 25 }
        [[("page", 2), ("size", 10)]] 0).1 :=
  links_search_expand_pure_idempotent { size := 10, page := 2, total := 25 }
    [[("page", 2), ("size", 10)]] 0 (by decide)

/-- C5: for size > 0, page >= 1 and total >= 0 the computed window has
`from_idx = (page-1)*size` and `to_idx = from_idx+size` both clamped
into the interval from 0 to total, `has_prev = page>1` and
`has_next = to_idx<total`; concretely, size 10 page 1 total 25 gives
the window from 0 to 10 with no prev and a next, and size 10 page 3
total 25 gives the window from 20 to 25 with no next. -/
theorem pagination_window_spec :
    (∀ size page total : Int, 1 ≤ size → 1 ≤ page → 0 ≤ total →
      ∃ p, Pagination.compute size page total = .ok p ∧
        p.from_idx = max 0 (min ((page - 1) * size) total) ∧
        p.to_idx = max 0 (min ((page - 1) * size + size) total) ∧
        0 ≤ p.from_idx ∧ p.from_idx ≤ p.to_idx ∧ p.to_idx ≤ total ∧
        (p.has_prev = true ↔ 1 < page) ∧
        (p.has_next = true ↔ p.to_idx < total))
    ∧ (∃ p, Pagination.compute 10 1 25 = .ok p ∧
        p.from_idx = 0 ∧ p.to_idx = 10 ∧
        p.has_prev = false ∧ p.has_next = true)
    ∧ (∃ p, Pagination.compute 10 3 25 = .ok p ∧
        p.from_idx = 20 ∧ p.to_idx = 25 ∧ p.has_next = false) := by
  refine ⟨?_, ⟨_, rfl, by decide, by decide, by decide, by decide⟩,
    ⟨_, rfl, by decide, by decide, by decide⟩⟩
  intro size page total hs hp ht
  refine ⟨{ size := size, page := page, total := total },
    pagination_compute_ok size page total hs hp, rfl, rfl, ?_, ?_, ?_, ?_, ?_⟩
  · exact le_max_left 0 _
  · exact max_le_max le_rfl
      (min_le_min (le_add_of_nonneg_right (by linarith)) le_rfl)
  · exact max_le ht (min_le_right _ _)
  · show decide (1 < page) = true ↔ 1 < page
    exact decide_eq_true_iff
  · show decide (Pagination.to_idx _ < total) = true ↔ _
    exact decide_eq_true_iff

/-- Witness for the C5 theorem: size 7, page 2, total 30. -/
theorem pagination_window_spec_witness :
    ∃ p, Pagination.compute 7 2 30 = .ok p ∧
      p.from_idx = max 0 (min ((2 - 1) * 7) 30) ∧
      p.to_idx = max 0 (min ((2 - 1) * 7 + 7) 30) ∧
      0 ≤ p.from_idx ∧ p.from_idx ≤ p.to_idx ∧ p.to_idx ≤ 30 ∧
      (p.has_prev = true ↔ (1 : Int) < 2) ∧
      (p.has_next = true ↔ p.to_idx < 30) :=
  pagination_window_spec.1 7 2 30 (by decide) (by decide) (by decide)

/-- C6: the pagination calculator itself fails with the InvalidArgument
condition whenever it is invoked — directly, without any transport-layer
filtering — with size < 1 or page < 1. -/
theorem pagination_invalid_argument :
    ∀ size page total : Int, size < 1 ∨ page < 1 →
      Pagination.compute size page total = .error .invalidArgument := by
  intro size page total h
  unfold Pagination.compute
  have hc : (decide (size < 1) || decide (page < 1)) = true := by
    rcases h with h | h <;> simp [h]
  rw [hc]
  rfl

/-- Witness for the C6 theorem: size 0 and page 0 both rejected. -/
theorem pagination_invalid_argument_witness :
    Pagination.compute 0 1 25 = .error .invalidArgument
    ∧ Pagination.compute 10 0 25 = .error .invalidArgument :=
  ⟨pagination_invalid_argument 0 1 25 (Or.inl (by decide)),
   pagination_invalid_argument 10 0 25 (Or.inr (by decide))⟩

/-- C7: the item representation is a mapping with exactly the keys id,
title, priority, is_owner and links, in that order; id, title and
priority are the item's stored fields, is_owner holds iff the identity's
id equals the item's owner id (recomputed from the identity on each
call), and links is the expansion of the configured item link templates
with the item as context. -/
theorem item_result_representation :
    ∀ (item : TodoItem) (identity : Identity),
      (TodoItemResult.to_dict { item := item, identity := identity }).map
          Prod.fst = ["id", "title", "priority", "is_owner", "links"]
      ∧ dvalGet (TodoItemResult.to_dict { item := item, identity := identity })
          "id" = some (DVal.dInt item.id)
      ∧ dvalGet (TodoItemResult.to_dict { item := item, identity := identity })
          "title" = some (DVal.dStr item.title)
      ∧ dvalGet (TodoItemResult.to_dict { item := item, identity := identity })
          "priority" = some (DVal.dInt item.priority)
      ∧ (dvalGet (TodoItemResult.to_dict { item := item, identity := identity })
          "is_owner" = some (DVal.dBool true) ↔ identity.id = item.user_id)
      ∧ dvalGet (TodoItemResult.to_dict { item := item, identity := identity })
          "links" =
          some (DVal.dDict (linksToDVal (linksItemExpand item))) := by
  intro item identity
  refine ⟨rfl, rfl, rfl, rfl, ?_, rfl⟩
  show some (DVal.dBool (decide (identity.id = item.user_id))) =
      some (DVal.dBool true) ↔ identity.id = item.user_id
  by_cases hid : identity.id = item.user_id <;> simp [hid]

/-- C8: the list representation reports hits.total as the count of the
full unsliced list, hits.hits as the items at positions from_idx to
to_idx of that list mapped through the item representation in slice
order, and its links mapping has keys drawn from prev, self, next with
prev and next present exactly when has_prev respectively has_next holds
for the computed window. -/
theorem list_result_representation :
    ∀ (items : List TodoItem) (identity : Identity) (page size : Int)
      (p : Pagination),
      Pagination.compute size page (items.length : Int) = .ok p →
      ∃ d, TodoListResult.to_dict
            { item_list := items, identity := identity, page := page,
              size := size } = .ok d
        ∧ dvalGet d "hits" = some (DVal.dDict
            [("hits", DVal.dArr ((sliceList items p.from_idx p.to_idx).map
                (fun it => DVal.dDict (TodoItemResult.to_dict
                  { item := it, identity := identity })))),
             ("total", DVal.dInt (items.length : Int))])
        ∧ ∃ ls, dvalGet d "links" = some (DVal.dDict (linksToDVal ls))
            ∧ ls.map Prod.fst =
                (if p.has_prev then ["prev"] else []) ++ ["self"] ++
                (if p.has_next then ["next"] else []) := by
  intro items identity page size p hc
  exact ⟨_, listToDict_ok items identity page size p hc, rfl,
    ⟨searchLinksOf p [("page", page), ("size", size)], rfl,
      searchLinksOf_keys p _⟩⟩

/-- Witness for the C8 theorem: two stored items for user 5, page 2 of
size 1. -/
theorem list_result_representation_witness :
    ∃ d, TodoListResult.to_dict
          { item_list := [itemW, itemB], identity := makeIdentity 5,
            page := 2, size := 1 } = .ok d
      ∧ dvalGet d "hits" = some (DVal.dDict
          [("hits", DVal.dArr ((sliceList [itemW, itemB]
              (Pagination.from_idx { size := 1, page := 2, total := 2 })
              (Pagination.to_idx { size := 1, page := 2, total := 2 })).map
              (fun it => DVal.dDict (TodoItemResult.to_dict
                { item := it, identity := makeIdentity 5 })))),
           ("total", DVal.dInt (([itemW, itemB] : List TodoItem).length : Int))])
      ∧ ∃ ls, dvalGet d "links" = some (DVal.dDict (linksToDVal ls))
          ∧ ls.map Prod.fst =
              (if Pagination.has_prev { size := 1, page := 2, total := 2 }
                then ["prev"] else []) ++ ["self"] ++
              (if Pagination.has_next { size := 1, page := 2, total := 2 }
                then ["next"] else []) :=
  list_result_representation [itemW, itemB] (makeIdentity 5) 2 1
    { size := 1, page := 2, total := 2 } rfl

/-- C9: a successful `create` leaves the store well keyed (pairwise
distinct keys, every item stored under its own id), maps the created
item's id to the created item whose owner is the calling identity's id
(replacing any previously stored item under that id, whoever owned it),
and leaves every other key unchanged. -/
theorem create_upsert_ownership :
    ∀ (db : Db) (identity : Identity) (data : RawData)
      (res : TodoItemResult × Db),
      dbWellKeyed db →
      TodoService.create db identity data = .ok res →
      dbWellKeyed res.2
      ∧ dictGet res.2 res.1.item.id = some res.1.item
      ∧ res.1.item.user_id = identity.id
      ∧ ∀ k, k ≠ res.1.item.id → dictGet res.2 k = dictGet db k := by
  intro db identity data res hwk hok
  obtain ⟨-, obj, -, hres⟩ := (create_eq_ok_iff db identity data res).mp hok
  rw [hres]
  dsimp only
  unfold TodoDatabase.add
  refine ⟨dictSet_wellKeyed db _ _ hwk rfl, ?_, rfl, ?_⟩
  · rw [dictGet_dictSet]
    rw [if_pos rfl]
  · intro k hk
    rw [dictGet_dictSet]
    rw [if_neg hk]

/-- Witness for the C9 theorem: user 5 creates id 1 over a store already
holding an item with id 1 owned by user 6; the stored item is replaced
and now owned by user 5. -/
theorem create_upsert_ownership_witness :
    dbWellKeyed resW.2
    ∧ dictGet resW.2 resW.1.item.id = some resW.1.item
    ∧ resW.1.item.user_id = (makeIdentity 5).id
    ∧ ∀ k, k ≠ resW.1.item.id → dictGet resW.2 k = dictGet dbOldW k :=
  create_upsert_ownership dbOldW (makeIdentity 5)
    [("id", Value.vInt 1), ("title", Value.vStr "New")] resW
    ⟨by decide, by decide⟩ rfl

/-- C10: the schema requires an integer id and a string title — their
absence, a non-numeric id or a non-string title raise ValidationError —
and when no priority is supplied the loaded object's and the stored
item's priority is 3. -/
theorem schema_required_and_default :
    (∀ data : RawData, rawGet data "id" = none →
      schemaLoad data = .error .validationError)
    ∧ (∀ data : RawData, rawGet data "title" = none →
      schemaLoad data = .error .validationError)
    ∧ (∀ (data : RawData) (s : String), rawGet data "id" = some (.vStr s) →
        strToInt? s = none → schemaLoad data = .error .validationError)
    ∧ (∀ (data : RawData) (n : Int), rawGet data "title" = some (.vInt n) →
        schemaLoad data = .error .validationError)
    ∧ (∀ (data : RawData) (obj : LoadedTodo), rawGet data "priority" = none →
        schemaLoad data = .ok obj → obj.priority = 3)
    ∧ (∀ (db : Db) (identity : Identity) (data : RawData)
        (res : TodoItemResult × Db), rawGet data "priority" = none →
        TodoService.create db identity data = .ok res →
        res.1.item.priority = 3) := by
  refine ⟨schemaLoad_missing_id, schemaLoad_missing_title, schemaLoad_bad_id,
    schemaLoad_bad_title, schemaLoad_priority_default, ?_⟩
  intro db identity data res hp hok
  obtain ⟨-, obj, hobj, hres⟩ := (create_eq_ok_iff db identity data res).mp hok
  rw [hres]
  exact schemaLoad_priority_default data obj hp hobj

/-- Witness for the C10 theorem: concrete inputs with a missing id, a
missing title, a non-numeric id, a non-string title, and a create
without priority storing priority 3. -/
theorem schema_required_and_default_witness :
    schemaLoad [("title", Value.vStr "T")] = .error .validationError
    ∧ schemaLoad [("id", Value.vInt 1)] = .error .validationError
    ∧ schemaLoad [("id", Value.vStr "x"), ("title", Value.vStr "T")] =
        .error .validationError
    ∧ schemaLoad [("id", Value.vInt 1), ("title", Value.vInt 2)] =
        .error .validationError
    ∧ ({ id := 1, title := "Test", priority := 3 } : LoadedTodo).priority = 3
    ∧ resW.1.item.priority = 3 :=
  ⟨schema_required_and_default.1 [("title", Value.vStr "T")] rfl,
   schema_required_and_default.2.1 [("id", Value.vInt 1)] rfl,
   schema_required_and_default.2.2.1
     [("id", Value.vStr "x"), ("title", Value.vStr "T")] "x" rfl (by decide),
   schema_required_and_default.2.2.2.1
     [("id", Value.vInt 1), ("title", Value.vInt 2)] 2 rfl,
   schema_required_and_default.2.2.2.2.1
     [("id", Value.vInt 1), ("title", Value.vStr "Test")]
     { id := 1, title := "Test", priority := 3 } rfl rfl,
   schema_required_and_default.2.2.2.2.2 dbOldW (makeIdentity 5)
     [("id", Value.vInt 1), ("title", Value.vStr "New")] resW rfl rfl⟩

end TodoApp
